import Mathlib

/-!
Shallow embedding of `src/concat_archivos.py`, a directory-concatenation
utility: traversal (`walk_files`), per-file filtering (`should_skip_file`,
`is_probably_text`, `match_any`), and emission (`main`'s output loop).

Filesystem effects are modelled by data: a file candidate carries the result
of `os.path.getsize` (`none` = `OSError`), the up-to-4096-byte sample read by
`is_probably_text` (`none` = read exception), and the decoded text returned
by `open(..., errors="replace").read()` (`none` = read exception).  Bytes are
`Nat` values below 256.  `fnmatch.fnmatch` is Python-stdlib code, not part of
this repository, so it is passed as an abstract parameter
`fn : String → String → Bool` (name, pattern).
-/

namespace ConcatArchivos

/-- Observable data of one candidate file, standing for the filesystem's
answers to the three effectful probes the script performs on it. -/
structure FileData where
  /-- `os.path.getsize` result; `none` models an `OSError`. -/
  size : Option Nat
  /-- the chunk `open(path, "rb").read(4096)`; `none` models a read error. -/
  sample : Option (List Nat)
  /-- `open(path, "r", encoding=..., errors="replace").read()`; `none`
  models an exception while opening/reading (decoding itself never fails,
  since every encoding error is replaced by a placeholder character). -/
  text : Option String
deriving Repr

/-- The parsed CLI options (`argparse` result), read-only after startup. -/
structure Args where
  folder : String
  output : String
  /-- `--include`, repeatable; `[]` when absent (Python default `[]`). -/
  includePatterns : List String
  /-- `--exclude`, repeatable; `[]` when absent. -/
  excludePatterns : List String
  /-- `--max-bytes`, a Python `int` (default 1,000,000). -/
  max_bytes : Int
  use_path : Bool
  show_hidden : Bool
  follow_symlinks : Bool
  encoding : String
deriving Repr

/-- `DEFAULT_EXCLUDED_DIRS` from the source. -/
def DEFAULT_EXCLUDED_DIRS : List String :=
  [".git", "node_modules", "target", "bin", "obj", "build", "dist", "vendor", "__pycache__"]

/-- `DEFAULT_EXCLUDED_EXTS` from the source. -/
def DEFAULT_EXCLUDED_EXTS : List String :=
  [".png", ".jpg", ".jpeg", ".gif", ".webp", ".bmp", ".ico", ".psd",
   ".pdf",
   ".zip", ".rar", ".7z", ".tar", ".gz", ".bz2", ".xz",
   ".mp3", ".wav", ".ogg", ".flac",
   ".mp4", ".mov", ".avi", ".mkv", ".webm",
   ".ttf", ".otf", ".woff", ".woff2",
   ".exe", ".dll", ".so", ".dylib", ".a", ".o",
   ".class", ".jar",
   ".blend", ".fbx", ".obj", ".glb", ".gltf"]

/-- `text_chars = bytearray(range(32, 127)) + b"\n\r\t\f\b"` from
`is_probably_text`. -/
def text_chars : List Nat :=
  (List.range 95).map (fun i => 32 + i) ++ [10, 13, 9, 12, 8]

/-- `is_probably_text(path)`: operates on the sampled chunk (`none` = the
`open`/`read` raised).  The Python comparison `printable / len(chunk) > 0.85`
is a float comparison; for chunks of length at most 4096 it coincides with
the exact rational comparison `printable * 20 > 17 * len(chunk)` used here
(rationals with denominator ≤ 4096 are farther than one double ulp from
0.85, so rounding cannot flip the comparison). -/
def is_probably_text (sample : Option (List Nat)) : Bool :=
  match sample with
  | none => false
  | some chunk =>
    if 0 ∈ chunk then false
    else if chunk.isEmpty then true
    else
      let printable := chunk.countP (fun c => decide (c ∈ text_chars))
      decide (printable * 20 > 17 * chunk.length)

/-- `match_any(patterns, name) = any(fnmatch.fnmatch(name, p) for p in patterns)`;
`fn` abstracts `fnmatch.fnmatch`. -/
def match_any (fn : String → String → Bool) (patterns : List String) (name : String) : Bool :=
  patterns.any (fun p => fn name p)

/-- Python `s.startswith(p)`, computed on the character data. -/
def str_startsWith (s p : String) : Bool :=
  p.data.isPrefixOf s.data

/-- Python `s.endswith(p)`, computed on the character data. -/
def str_endsWith (s p : String) : Bool :=
  p.data.isSuffixOf s.data

/-- Python `s.lower()` restricted to ASCII (the only case the default
extension set distinguishes). -/
def str_toLower (s : String) : String :=
  ⟨s.data.map Char.toLower⟩

/-- Python `sep.join(parts)` / `os.path.relpath` reassembly: the path
components joined by the separator. -/
def str_join (sep : String) : List String → String
  | [] => ""
  | [x] => x
  | x :: xs => x ++ sep ++ str_join sep xs

/-- `os.path.splitext` (CPython `genericpath._splitext`) applied to a base
name (no directory separator): split at the last `.`, unless every character
before that dot is itself a dot (then there is no extension). -/
def splitext (p : String) : String × String :=
  let cs := p.toList
  match cs.reverse.findIdx? (fun c => c == '.') with
  | none => (p, "")
  | some ri =>
    let d := cs.length - 1 - ri
    if (List.range d).all (fun j => cs.getD j ' ' == '.') then (p, "")
    else (⟨cs.take d⟩, ⟨cs.drop d⟩)

/-- `should_skip_file(path, args)`, with `base = os.path.basename(path)`
passed directly and the filesystem probes carried by `f`. -/
def should_skip_file (fn : String → String → Bool) (base : String) (f : FileData)
    (a : Args) : Bool :=
  -- Ocultos
  if !a.show_hidden && str_startsWith base "." then true
  else
    -- Tamaño (try os.path.getsize / except OSError → skip)
    match f.size with
    | none => true
    | some sz =>
      if (sz : Int) > a.max_bytes then true
      else
        -- Extensiones excluidas
        let ext := str_toLower (splitext base).2
        if ext ∈ DEFAULT_EXCLUDED_EXTS && a.includePatterns.isEmpty then true
        -- Patrones de exclusión
        else if !a.excludePatterns.isEmpty && match_any fn a.excludePatterns base then true
        -- Si hay --include, solo tomamos lo que matchee
        else if !a.includePatterns.isEmpty && !match_any fn a.includePatterns base then true
        -- Heurística de texto
        else if !is_probably_text f.sample then true
        else false

/-! The six filtering rules of the spec, stated separately so the
short-circuit chain of `should_skip_file` can be compared against them. -/

/-- Rule 1: hidden-name check. -/
def rule_hidden (base : String) (a : Args) : Bool :=
  !a.show_hidden && str_startsWith base "."

/-- Rule 2: size check (stat failure also skips). -/
def rule_size (f : FileData) (a : Args) : Bool :=
  match f.size with
  | none => true
  | some sz => decide ((sz : Int) > a.max_bytes)

/-- Rule 3: default-extension check (void whenever include patterns exist). -/
def rule_ext (base : String) (a : Args) : Bool :=
  str_toLower (splitext base).2 ∈ DEFAULT_EXCLUDED_EXTS && a.includePatterns.isEmpty

/-- Rule 4: explicit exclude-pattern check. -/
def rule_exclude (fn : String → String → Bool) (base : String) (a : Args) : Bool :=
  !a.excludePatterns.isEmpty && match_any fn a.excludePatterns base

/-- Rule 5: explicit include-pattern check. -/
def rule_include (fn : String → String → Bool) (base : String) (a : Args) : Bool :=
  !a.includePatterns.isEmpty && !match_any fn a.includePatterns base

/-- Rule 6: binary-content sniff. -/
def rule_sniff (f : FileData) : Bool :=
  !is_probably_text f.sample

/-! ## Traversal -/

mutual
/-- A directory of the scanned tree: the `filenames` of `os.walk`'s triple
(each with its `FileData`) and the `dirnames` with their subtrees, in the
filesystem's enumeration order. -/
inductive FSTree where
  | mk (files : List (String × FileData)) (subdirs : FSDirs)
/-- The named subdirectories of a directory. -/
inductive FSDirs where
  | nil
  | cons (name : String) (t : FSTree) (rest : FSDirs)
end

mutual
/-- `walk_files(root)`: `os.walk` top-down with in-place pruning of
`dirnames`.  Each yielded entry is `(dirs, name, data)`, where `dirs` is the
list of directory components of `os.path.join(dirpath, fname)` relative to
the root and `name` the file's base name.  The current directory's files are
yielded first, then the non-pruned subdirectories are visited in order. -/
def walk_files (cur : List String) : FSTree → List (List String × String × FileData)
  | .mk files subdirs =>
    files.map (fun fd => (cur, fd.1, fd.2)) ++ walk_dirs cur subdirs
/-- Descend into each subdirectory unless its name is in
`DEFAULT_EXCLUDED_DIRS` or starts with `"."` (those are removed from
`dirnames` before `os.walk` recurses). -/
def walk_dirs (cur : List String) : FSDirs → List (List String × String × FileData)
  | .nil => []
  | .cons name t rest =>
    (if name ∈ DEFAULT_EXCLUDED_DIRS || str_startsWith name "." then []
     else walk_files (cur ++ [name]) t) ++ walk_dirs cur rest
end

/-- A directory name the traversal prunes: member of the fixed default set or
hidden. -/
def excludedDirName (d : String) : Bool :=
  d ∈ DEFAULT_EXCLUDED_DIRS || str_startsWith d "."

/-! ## Emission -/

/-- The four `out.write` calls of `main`'s loop body, appending one file's
block to the output accumulated so far. -/
def emit_block (out : String) (header : String) (content : String) : String :=
  let o := out ++ header ++ ":\n"
  let o := o ++ content
  let o := if str_endsWith content "\n" then o else o ++ "\n"
  o ++ "\n"

/-- `main`'s loop over `walk_files`, threading the output text and `count`:
skip filtered candidates, skip candidates whose text read raises (keeping
`count`), otherwise append the block and increment `count`.  The header is
`os.path.relpath(path, root)` (the components joined by `/`) when
`--use-path` is given, else the base name. -/
def process_entries (fn : String → String → Bool) (a : Args) :
    List (List String × String × FileData) → String × Nat → String × Nat
  | [], acc => acc
  | (dirs, name, fd) :: rest, (out, count) =>
    if should_skip_file fn name fd a then
      process_entries fn a rest (out, count)
    else
      match fd.text with
      | none => process_entries fn a rest (out, count)
      | some content =>
        let header := if a.use_path then str_join "/" (dirs ++ [name]) else name
        process_entries fn a rest (emit_block out header content, count + 1)

/-- Observable outcome of one invocation of `main`. -/
structure RunResult where
  exitCode : Nat
  stdout : String
  stderr : String
  /-- content written to the output file; `none` when it was never opened. -/
  outFile : Option String
deriving Repr

/-- `main` after argument parsing: `root` is `none` when
`os.path.isdir(root)` is false (then the script prints to stderr and calls
`sys.exit(1)` before opening the output file), otherwise the scanned tree.
On success the script falls off the end of `main` (exit status 0) after
printing the summary line to stdout. -/
def run (fn : String → String → Bool) (a : Args) (root : Option FSTree) : RunResult :=
  match root with
  | none =>
    { exitCode := 1
      stdout := ""
      stderr := "✖ La ruta no es una carpeta: " ++ a.folder
      outFile := none }
  | some t =>
    let r := process_entries fn a (walk_files [] t) ("", 0)
    { exitCode := 0
      stdout := "✔ Listo. Archivos incluidos: " ++ toString r.2 ++ "\n→ " ++ a.output
      stderr := ""
      outFile := some r.1 }

/-- State of the output path on disk after one invocation: untouched when the
root is not a directory (the script exits before `open(args.output, "w")`),
otherwise the previous bytes are truncated away and replaced by the run's
output. -/
def output_file_after_run (fn : String → String → Bool) (a : Args)
    (root : Option FSTree) (prev : Option String) : Option String :=
  match root with
  | none => prev
  | some _ => (run fn a root).outFile

/-! ## Spec-side vocabulary -/

/-- The ordered rule list of the spec's filtering contract: hidden name,
size, default extension, explicit exclude, explicit include, binary sniff. -/
def filter_rules (fn : String → String → Bool) :
    List (String → FileData → Args → Bool) :=
  [fun base _ a => rule_hidden base a,
   fun _ f a => rule_size f a,
   fun base _ a => rule_ext base a,
   fun base _ a => rule_exclude fn base a,
   fun base _ a => rule_include fn base a,
   fun _ f _ => rule_sniff f]

/-- The spec's byte classification: printable ASCII (codes 32–126) or one of
newline, carriage return, tab, form feed, backspace. -/
def printable_or_ws (c : Nat) : Bool :=
  decide ((32 ≤ c ∧ c ≤ 126) ∨ c = 10 ∨ c = 13 ∨ c = 9 ∨ c = 12 ∨ c = 8)

/-! ## Concrete sample data for the closed witness statements -/

/-- A concrete stand-in for `fnmatch.fnmatch`: exact-name patterns only. -/
def fnmatch_eq (name pat : String) : Bool :=
  name == pat

/-- The `argparse` defaults with a sample folder. -/
def args_default : Args :=
  { folder := "proyecto", output := "contenido_carpeta.txt",
    includePatterns := [], excludePatterns := [], max_bytes := 1000000,
    use_path := false, show_hidden := false, follow_symlinks := false,
    encoding := "utf-8" }

/-- A small readable text file (`"hi\n"`). -/
def fd_text : FileData :=
  { size := some 10, sample := some [104, 105, 10], text := some "hi\n" }

/-- A file that passes filtering but whose text read raises. -/
def fd_noread : FileData :=
  { size := some 10, sample := some [104, 105, 10], text := none }

/-- A file whose sample starts with a null byte. -/
def fd_binary : FileData :=
  { size := some 10, sample := some [0, 104], text := none }

/-- A root with one subdirectory `src` holding `a.py`. -/
def tree_sample : FSTree :=
  .mk [] (.cons "src" (.mk [("a.py", fd_text)] .nil) .nil)

/-! ## Helper lemmas -/

/-- The skip decision is the disjunction of the six rules (pure predicates,
so the short-circuit if-chain collapses to `||` in source order). -/
theorem should_skip_file_eq_or (fn : String → String → Bool) (base : String)
    (f : FileData) (a : Args) :
    should_skip_file fn base f a =
      (rule_hidden base a || rule_size f a || rule_ext base a ||
       rule_exclude fn base a || rule_include fn base a || rule_sniff f) := by
  unfold should_skip_file rule_hidden rule_size rule_ext rule_exclude rule_include rule_sniff
  rcases f with ⟨sz, sample, text⟩
  rcases sz with _ | s
  · simp
  · simp only []
    split_ifs <;> simp_all

mutual
/-- Every entry yielded under `cur` extends `cur` by non-pruned directory
components only. -/
theorem walk_files_dirs_clean (cur : List String) (t : FSTree) :
    ∀ e ∈ walk_files cur t, ∃ suf, e.1 = cur ++ suf ∧
      ∀ d ∈ suf, excludedDirName d = false := by
  match t with
  | .mk files subdirs =>
    intro e he
    rw [walk_files] at he
    rcases List.mem_append.1 he with hf | hd
    · rcases List.mem_map.1 hf with ⟨fd, _, rfl⟩
      exact ⟨[], by simp, by simp⟩
    · exact walk_dirs_dirs_clean cur subdirs e hd
/-- As `walk_files_dirs_clean`, for the subdirectory walk. -/
theorem walk_dirs_dirs_clean (cur : List String) (ds : FSDirs) :
    ∀ e ∈ walk_dirs cur ds, ∃ suf, e.1 = cur ++ suf ∧
      ∀ d ∈ suf, excludedDirName d = false := by
  match ds with
  | .nil => intro e he; rw [walk_dirs] at he; simp at he
  | .cons name t rest =>
    intro e he
    rw [walk_dirs] at he
    rcases List.mem_append.1 he with h1 | h2
    · by_cases hex : (name ∈ DEFAULT_EXCLUDED_DIRS || str_startsWith name ".") = true
      · rw [if_pos hex] at h1
        simp at h1
      · rw [if_neg hex] at h1
        obtain ⟨suf, hsuf, hall⟩ := walk_files_dirs_clean (cur ++ [name]) t e h1
        refine ⟨name :: suf, by simpa using hsuf, ?_⟩
        intro d hd
        rcases List.mem_cons.1 hd with rfl | hd'
        · simpa [excludedDirName] using hex
        · exact hall d hd'
    · exact walk_dirs_dirs_clean cur rest e h2
end

/-- Membership in the source's `text_chars` coincides with the spec's
printable-or-whitespace classification. -/
theorem mem_text_chars_iff (c : Nat) :
    c ∈ text_chars ↔ ((32 ≤ c ∧ c ≤ 126) ∨ c = 10 ∨ c = 13 ∨ c = 9 ∨ c = 12 ∨ c = 8) := by
  simp only [text_chars, List.mem_append, List.mem_map, List.mem_range]
  constructor
  · rintro (⟨i, hi, rfl⟩ | h)
    · exact Or.inl ⟨by omega, by omega⟩
    · simp only [List.mem_cons, List.mem_singleton, List.not_mem_nil, or_false] at h
      tauto
  · rintro (⟨h1, h2⟩ | h)
    · exact Or.inl ⟨c - 32, by omega, by omega⟩
    · simp only [List.mem_cons, List.mem_singleton, List.not_mem_nil, or_false]
      tauto

/-! ## Claims -/

/-- C1: the skip decision of `should_skip_file` is exactly the first-match
evaluation of the six rules in the fixed order hidden, size, extension,
exclude, include, sniff (`List.any` scans the ordered rule list and
short-circuits at the first rule that fires), and a file is accepted iff
none of the six rules triggers. -/
theorem should_skip_file_applies_rules_in_order (fn : String → String → Bool)
    (base : String) (f : FileData) (a : Args) :
    should_skip_file fn base f a = (filter_rules fn).any (fun r => r base f a) ∧
    (should_skip_file fn base f a = false ↔
      ∀ r ∈ filter_rules fn, r base f a = false) := by
  rw [should_skip_file_eq_or]
  constructor
  · simp [filter_rules, List.any, Bool.or_assoc]
  · simp only [filter_rules, List.mem_cons, List.not_mem_nil, or_false, forall_eq_or_imp,
      forall_eq, Bool.or_eq_false_iff]
    tauto

/-- C4: as soon as at least one include pattern is supplied, the default
extension rule is bypassed (it can never fire), and any accepted file's base
name matches at least one include pattern. -/
theorem include_patterns_bypass_ext_and_gate (fn : String → String → Bool)
    (base : String) (f : FileData) (a : Args)
    (h : a.includePatterns ≠ []) :
    rule_ext base a = false ∧
    (should_skip_file fn base f a = false →
      match_any fn a.includePatterns base = true) := by
  have hne : a.includePatterns.isEmpty = false := by
    simpa [List.isEmpty_iff] using h
  constructor
  · simp [rule_ext, hne]
  · intro hs
    rw [should_skip_file_eq_or] at hs
    simp only [Bool.or_eq_false_iff] at hs
    have hinc := hs.1.2
    simp only [rule_include, hne, Bool.not_false, Bool.true_and,
      Bool.not_eq_false'] at hinc
    exact hinc

/-- Closed instance of C4 at the default options with one include pattern. -/
theorem include_patterns_bypass_ext_and_gate_witness :
    rule_ext "b.png" { args_default with includePatterns := ["b.png"] } = false ∧
    (should_skip_file fnmatch_eq "b.png" fd_text
        { args_default with includePatterns := ["b.png"] } = false →
      match_any fnmatch_eq ["b.png"] "b.png" = true) :=
  include_patterns_bypass_ext_and_gate fnmatch_eq "b.png" fd_text
    { args_default with includePatterns := ["b.png"] } (by decide)

/-- C5: the size rule skips exactly when the stat failed or the reported
size strictly exceeds `max_bytes`; in particular a file of exactly
`max_bytes` bytes passes the size check and one of `max_bytes + 1` bytes is
skipped. -/
theorem size_rule_boundary (a : Args) (f : FileData) :
    (rule_size f a = true ↔
      f.size = none ∨ ∃ s : Nat, f.size = some s ∧ a.max_bytes < (s : Int)) ∧
    (∀ s : Nat, f.size = some s →
      (rule_size f a = false ↔ (s : Int) ≤ a.max_bytes)) := by
  constructor
  · rcases hs : f.size with _ | s
    · simp [rule_size, hs]
    · simp only [rule_size, hs, decide_eq_true_eq]
      constructor
      · intro h; exact Or.inr ⟨s, rfl, h⟩
      · rintro (h | ⟨s', hs', h⟩)
        · exact absurd h (by simp)
        · cases hs'; exact h
  · intro s hs
    simp [rule_size, hs]

/-- Closed instance of C5 at the boundary `max_bytes = 1,000,000`. -/
theorem size_rule_boundary_witness :
    rule_size { size := some 1000000, sample := none, text := none } args_default = false ∧
    rule_size { size := some 1000001, sample := none, text := none } args_default = true := by
  constructor
  · exact ((size_rule_boundary args_default
      { size := some 1000000, sample := none, text := none }).2 1000000 rfl).2 (by decide)
  · exact (size_rule_boundary args_default
      { size := some 1000001, sample := none, text := none }).1.2
      (Or.inr ⟨1000001, rfl, by decide⟩)

/-- C10: include patterns do not bypass the binary-content sniff: a file
whose base name matches an include pattern is still skipped whenever the
probably-text heuristic classifies its sample as binary. -/
theorem include_match_still_sniffed (fn : String → String → Bool)
    (base : String) (f : FileData) (a : Args)
    (_hmatch : match_any fn a.includePatterns base = true)
    (hbin : is_probably_text f.sample = false) :
    should_skip_file fn base f a = true := by
  rw [should_skip_file_eq_or]
  simp [rule_sniff, hbin]

/-- Closed instance of C10: a binary `b.png` stays excluded even when
`--include b.png` names it. -/
theorem include_match_still_sniffed_witness :
    should_skip_file fnmatch_eq "b.png" fd_binary
      { args_default with includePatterns := ["b.png"] } = true :=
  include_match_still_sniffed fnmatch_eq "b.png" fd_binary
    { args_default with includePatterns := ["b.png"] } (by decide) (by decide)

/-- C2: the block appended for an accepted file is exactly the header, a
colon, a newline, the content verbatim, one added trailing newline iff the
content does not already end with a newline, and the blank-line separator
newline. -/
theorem emitted_block_layout (out header content : String) :
    (str_endsWith content "\n" = true →
      emit_block out header content =
        out ++ header ++ ":" ++ "\n" ++ content ++ "\n") ∧
    (str_endsWith content "\n" = false →
      emit_block out header content =
        out ++ header ++ ":" ++ "\n" ++ content ++ "\n" ++ "\n") := by
  have h2 : (":" : String) ++ "\n" = ":\n" := rfl
  constructor
  · intro h
    unfold emit_block
    rw [h, ← h2]
    simp [String.append_assoc]
  · intro h
    unfold emit_block
    rw [h, ← h2]
    simp [String.append_assoc]

/-- Closed instance of C2, one content with and one without a final
newline. -/
theorem emitted_block_layout_witness :
    emit_block "" "a.py" "hi\n" = "" ++ "a.py" ++ ":" ++ "\n" ++ "hi\n" ++ "\n" ∧
    emit_block "" "b.py" "hi" = "" ++ "b.py" ++ ":" ++ "\n" ++ "hi" ++ "\n" ++ "\n" :=
  ⟨(emitted_block_layout "" "a.py" "hi\n").1 (by decide),
   (emitted_block_layout "" "b.py" "hi").2 (by decide)⟩

/-- C3: every entry yielded by `walk_files` from the root has only
non-pruned directory components (not in `DEFAULT_EXCLUDED_DIRS`, not
starting with `"."`), so no file beneath a pruned directory — at any
nesting depth — is ever yielded, and hence none can reach the output. -/
theorem no_file_under_pruned_dir_yielded (t : FSTree) :
    ∀ e ∈ walk_files [] t, ∀ d ∈ e.1, excludedDirName d = false := by
  intro e he d hd
  obtain ⟨suf, hsuf, hall⟩ := walk_files_dirs_clean [] t e he
  rw [List.nil_append] at hsuf
  exact hall d (hsuf ▸ hd)

/-- Closed instance of C3 on a sample tree. -/
theorem no_file_under_pruned_dir_yielded_witness :
    excludedDirName "src" = false :=
  no_file_under_pruned_dir_yielded tree_sample (["src"], "a.py", fd_text)
    (by simp [tree_sample, fd_text, walk_files, walk_dirs, DEFAULT_EXCLUDED_DIRS,
      str_startsWith])
    "src" (by simp)

/-- C6: the probably-text heuristic classifies an unreadable sample as
binary, any sample containing a null byte as binary, an empty sample as
text, and otherwise says text iff strictly more than a fraction 17/20 = 0.85
of the sample bytes are printable ASCII (32–126) or one of newline, carriage
return, tab, form feed, backspace (`20 * printable > 17 * length` is the
exact form of `printable / length > 0.85`). -/
theorem probably_text_characterization (sample : Option (List Nat)) :
    is_probably_text sample = true ↔
      ∃ chunk, sample = some chunk ∧ (0 : Nat) ∉ chunk ∧
        (chunk = [] ∨ 17 * chunk.length < 20 * chunk.countP printable_or_ws) := by
  have hcount : ∀ chunk : List Nat,
      chunk.countP (fun c => decide (c ∈ text_chars)) = chunk.countP printable_or_ws := by
    intro chunk
    apply List.countP_congr
    intro c _
    simp only [printable_or_ws, decide_eq_true_eq]
    exact mem_text_chars_iff c
  rcases sample with _ | chunk
  · simp [is_probably_text]
  · simp only [is_probably_text, Option.some.injEq]
    by_cases hz : (0 : Nat) ∈ chunk
    · rw [if_pos hz]
      simp only [Bool.false_eq_true, false_iff, not_exists]
      rintro c ⟨rfl, hnot, _⟩
      exact hnot hz
    · rw [if_neg hz]
      by_cases he : chunk.isEmpty = true
      · rw [if_pos he]
        simp only [true_iff]
        exact ⟨chunk, rfl, hz, Or.inl (List.isEmpty_iff.1 he)⟩
      · rw [if_neg he]
        simp only [decide_eq_true_eq, hcount chunk]
        constructor
        · intro h
          exact ⟨chunk, rfl, hz, Or.inr (by omega)⟩
        · rintro ⟨c, hc, -, h⟩
          cases hc
          rcases h with rfl | h
          · simp at he
          · omega

/-- C7: a candidate that passed filtering but whose text read raises is
silently dropped: the loop's result (output text and emitted-file count) is
as if the candidate were not there, and processing continues with the rest.
(Text decoding itself is modelled as total, since `errors="replace"`
substitutes a placeholder for every encoding error instead of raising.) -/
theorem read_failure_skipped_silently (fn : String → String → Bool) (a : Args)
    (dirs : List String) (name : String) (fd : FileData)
    (rest : List (List String × String × FileData)) (out : String) (count : Nat)
    (hpass : should_skip_file fn name fd a = false)
    (hfail : fd.text = none) :
    process_entries fn a ((dirs, name, fd) :: rest) (out, count) =
      process_entries fn a rest (out, count) := by
  simp [process_entries, hpass, hfail]

/-- Closed instance of C7: a readable-looking candidate whose text read
fails contributes nothing. -/
theorem read_failure_skipped_silently_witness :
    process_entries fnmatch_eq args_default [([], "a.py", fd_noread)] ("", 0) =
      process_entries fnmatch_eq args_default [] ("", 0) :=
  read_failure_skipped_silently fnmatch_eq args_default [] "a.py" fd_noread [] "" 0
    (by decide) rfl

/-- C8: when the resolved root is not a directory the program exits with
status 1, writes the error message to stderr, and never opens the output
file; when it is a directory the program exits with status 0 and prints the
summary with the emitted-file count and the output path to stdout. -/
theorem exit_behavior (fn : String → String → Bool) (a : Args) (t : FSTree) :
    run fn a none =
      { exitCode := 1, stdout := "",
        stderr := "✖ La ruta no es una carpeta: " ++ a.folder, outFile := none } ∧
    (run fn a (some t)).exitCode = 0 ∧
    (run fn a (some t)).stdout =
      "✔ Listo. Archivos incluidos: " ++
        toString (process_entries fn a (walk_files [] t) ("", 0)).2 ++
        "\n→ " ++ a.output := by
  refine ⟨rfl, rfl, rfl⟩

/-- C9: the output path is opened with mode `"w"` (truncate), so a rerun on
an unchanged directory with identical options replaces whatever the previous
run left there with byte-identical content: running the transformer of the
on-disk output file twice equals running it once. -/
theorem rerun_overwrites_byte_identical (fn : String → String → Bool) (a : Args)
    (t : FSTree) (prev : Option String) :
    output_file_after_run fn a (some t) (output_file_after_run fn a (some t) prev) =
      output_file_after_run fn a (some t) prev ∧
    output_file_after_run fn a (some t) prev =
      some (process_entries fn a (walk_files [] t) ("", 0)).1 := by
  exact ⟨rfl, rfl⟩

end ConcatArchivos
